import Mathlib

/-!
Verification of the daily-messenger resilient data-acquisition pipeline.

This file shallowly embeds the core of `src/daily_messenger/etl/run_fetch.py`
and `scoring/run_scores.py` (plus the sentiment adaptor in
`src/daily_messenger/scoring/adaptors/sentiment.py`) as executable Lean
definitions, and proves the specified properties about them.

Python floats are modelled as rationals (`ℚ`); the real-valued sentiment
transforms (log / tanh / sqrt) are modelled over `ℝ`.  Python `None` is
modelled with `Option`, raised exceptions with `Except`.  Wall-clock time in
the resilience layer is modelled by an explicit elapsed-time accumulator:
each scripted attempt carries the duration the network request took, and
sleeping advances the clock by the slept amount.
-/

namespace DailyMessenger

/-! ## Provider resolver (`_attempt_quote`, run_fetch.py lines 1702-1712)

A candidate fetcher is modelled as its provider label together with the
outcome its thunk would produce when invoked (`Except.ok` snapshot or
`Except.error` message).  The embedding additionally returns the list of
labels whose thunks were actually invoked, in invocation order, so that
"later candidates are never invoked" is a provable statement. -/

/-- `_QuoteSnapshot` dataclass (run_fetch.py lines 219-224). -/
structure QuoteSnapshot where
  day : String
  close : ℚ
  changePct : ℚ
  source : String
deriving DecidableEq, Repr

/-- Loop body of `_attempt_quote`: walk the candidate list, accumulating
`"label: error"` strings for failures; first success returns immediately.
Second component of the result is the list of invoked provider labels. -/
def attemptQuoteGo :
    List (String × Except String QuoteSnapshot) → List String →
    Except String QuoteSnapshot × List String
  | [], errors =>
      (Except.error
        (if errors.isEmpty then "无可用行情来源" else String.intercalate "; " errors),
       [])
  | (label, thunk) :: rest, errors =>
      match thunk with
      | Except.ok snap => (Except.ok snap, [label])
      | Except.error exc =>
          let res := attemptQuoteGo rest (errors ++ [label ++ ": " ++ exc])
          (res.1, label :: res.2)

/-- `_attempt_quote(fetchers)` (run_fetch.py lines 1702-1712). -/
def attemptQuote (fetchers : List (String × Except String QuoteSnapshot)) :
    Except String QuoteSnapshot × List String :=
  attemptQuoteGo fetchers []

/-- Failure messages recorded by the resolver, one per failed candidate. -/
def failureMessages (failures : List (String × String)) : List String :=
  failures.map (fun p => p.1 ++ ": " ++ p.2)

lemma attemptQuoteGo_success
    (pre suf : List (String × Except String QuoteSnapshot))
    (name : String) (snap : QuoteSnapshot)
    (hpre : ∀ p ∈ pre, ∃ e, p.2 = Except.error e) :
    ∀ errors, attemptQuoteGo (pre ++ (name, Except.ok snap) :: suf) errors =
      (Except.ok snap, pre.map Prod.fst ++ [name]) := by
  induction pre with
  | nil => intro errors; simp [attemptQuoteGo]
  | cons hd tl ih =>
      intro errors
      obtain ⟨e, he⟩ := hpre hd (by simp)
      obtain ⟨hl, hf⟩ := hd
      simp only [Prod.snd] at he
      subst he
      simp only [List.cons_append, attemptQuoteGo, List.append_eq]
      rw [ih (fun p hp => hpre p (by simp [hp]))]
      simp

lemma attemptQuoteGo_all_fail (failures : List (String × String)) :
    ∀ errors,
      attemptQuoteGo (failures.map (fun p => (p.1, Except.error p.2))) errors =
      (Except.error
        (if (errors ++ failureMessages failures).isEmpty then "无可用行情来源"
         else String.intercalate "; " (errors ++ failureMessages failures)),
       failures.map Prod.fst) := by
  induction failures with
  | nil => intro errors; simp [attemptQuoteGo, failureMessages]
  | cons hd tl ih =>
      intro errors
      simp only [List.map_cons, attemptQuoteGo]
      rw [ih (errors ++ [hd.1 ++ ": " ++ hd.2])]
      simp [failureMessages, List.append_assoc]

/-- **C1.** The resolver tries candidates strictly in order: with every
candidate before position `k` failing and candidate `k` succeeding, the
result is exactly candidate `k`'s snapshot, the invoked-provider trace is
the failing prefix followed by the winner (so no later candidate is ever
invoked, whatever the suffix holds), and—since the winning thunk's snapshot
carries that provider's name as its `source`—the returned `source` equals the
winning provider's name.  When every candidate fails, the resolver invokes
all of them and raises a single error concatenating every provider's
`"providerName: errorText"` failure reason with `"; "`. -/
theorem attemptQuote_first_success_wins_and_failures_concatenated
    (pre suf : List (String × Except String QuoteSnapshot))
    (name : String) (snap : QuoteSnapshot)
    (hpre : ∀ p ∈ pre, ∃ e, p.2 = Except.error e)
    (hsrc : snap.source = name) :
    attemptQuote (pre ++ (name, Except.ok snap) :: suf) =
      (Except.ok snap, pre.map Prod.fst ++ [name]) ∧
    (∃ out, (attemptQuote (pre ++ (name, Except.ok snap) :: suf)).1 =
      Except.ok out ∧ out.source = name) ∧
    (∀ failures : List (String × String), failures ≠ [] →
      attemptQuote (failures.map (fun p => (p.1, Except.error p.2))) =
        (Except.error (String.intercalate "; " (failureMessages failures)),
         failures.map Prod.fst)) := by
  refine ⟨?_, ?_, ?_⟩
  · exact attemptQuoteGo_success pre suf name snap hpre []
  · exact ⟨snap, by rw [attemptQuote, attemptQuoteGo_success pre suf name snap hpre []],
      hsrc⟩
  · intro failures hne
    rw [attemptQuote, attemptQuoteGo_all_fail failures []]
    have : (([] : List String) ++ failureMessages failures).isEmpty = false := by
      simp [failureMessages, List.isEmpty_iff, hne]
    simp only [List.nil_append] at this ⊢
    rw [this]
    simp

/-- Witness for C1 at a concrete candidate list: `stooq` fails, `fmp`
succeeds, `yahoo` is listed after but never invoked. -/
theorem attemptQuote_first_success_wins_witness :
    attemptQuote
      [("stooq", Except.error "Stooq 未返回数据"),
       ("fmp", Except.ok ⟨"2024-01-02", 100, 1, "fmp"⟩),
       ("yahoo", Except.ok ⟨"2024-01-02", 99, 0, "yahoo"⟩)] =
      (Except.ok ⟨"2024-01-02", 100, 1, "fmp"⟩, ["stooq", "fmp"]) ∧
    attemptQuote
      [("stooq", Except.error "超时"), ("fmp", Except.error "缺少 Key")] =
      (Except.error "stooq: 超时; fmp: 缺少 Key", ["stooq", "fmp"]) := by
  have h := attemptQuote_first_success_wins_and_failures_concatenated
    [("stooq", Except.error "Stooq 未返回数据")]
    [("yahoo", Except.ok ⟨"2024-01-02", 99, 0, "yahoo"⟩)]
    "fmp" ⟨"2024-01-02", 100, 1, "fmp"⟩
    (by intro p hp; simp at hp; exact ⟨"Stooq 未返回数据", by simp [hp]⟩)
    rfl
  refine ⟨?_, ?_⟩
  · simpa using h.1
  · have h2 := h.2.2 [("stooq", "超时"), ("fmp", "缺少 Key")] (by simp)
    simpa [failureMessages] using h2

/-! ## Resilience layer (`_request_json`, run_fetch.py lines 848-943)

The network is scripted: each loop iteration consumes one `StepInput`
describing what `session.request` did on that attempt (transport exception,
or a response with a status code, an optional parsed `Retry-After` header
and an optional successfully-parsed JSON body), how long the request took,
and the value `random.random()` produced.  The function returns the final
outcome together with the trace of sleeps it performed, each tagged with the
code path that produced it. -/

/-- `_sleep(seconds)` (run_fetch.py lines 167-170), modelled as the number of
seconds actually slept given the module-level `THROTTLE_DISABLED` flag. -/
def etlSleep (throttleDisabled : Bool) (seconds : ℚ) : ℚ :=
  if seconds ≤ 0 ∨ throttleDisabled then 0 else seconds

/-- `_sleep_exact(seconds)` (run_fetch.py lines 817-819): sleeps whenever
`seconds > 0`.  It does not consult `THROTTLE_DISABLED`, which is why the
flag does not appear in its signature. -/
def sleepExact (seconds : ℚ) : ℚ :=
  if 0 < seconds then seconds else 0

/-- `RetryPolicy` (run_fetch.py lines 822-841).  `hardDeadline = none` models
`hard_deadline=None`; a stored `0` is falsy in Python and likewise disables
the deadline check. -/
structure RetryPolicy where
  retries : Nat
  backoffStart : ℚ
  backoffFactor : ℚ
  jitter : ℚ
  statusForcelist : List Nat
  maxSleep : ℚ
  perRequestTimeout : ℚ
  hardDeadline : Option ℚ
deriving DecidableEq, Repr

/-- `RETRY_DEFAULT = RetryPolicy()` (run_fetch.py line 844) with the default
arguments of lines 825-832 (`REQUEST_TIMEOUT = 15`, line 76). -/
def RETRY_DEFAULT : RetryPolicy :=
  ⟨3, 3/5, 2, 3/10, [408, 409, 425, 429, 500, 502, 503, 504], 8, 15, some 20⟩

/-- `policy.hard_deadline and (elapsed + sleep) > policy.hard_deadline`
(run_fetch.py lines 888-892 and 912-916). -/
def deadlineWouldBeExceeded (p : RetryPolicy) (elapsed sleepSeconds : ℚ) : Bool :=
  match p.hardDeadline with
  | Option.none => false
  | some hd => if hd = 0 then false else decide (elapsed + sleepSeconds > hd)

/-- What `session.request` produced on one attempt: a transport-level
`requests.RequestException`, or a response with its status code, the parsed
`Retry-After` header (`none` if absent or unparseable, cf. lines 807-814),
the parsed JSON body (`none` models `resp.json()` raising `ValueError`) and
the first 200 characters of `resp.text`. -/
inductive NetResult where
  | transportError (msg : String)
  | response (status : Nat) (retryAfter : Option ℚ) (body : Option String)
      (text : String)
deriving DecidableEq, Repr

/-- One scripted loop iteration: the network outcome, the value
`random.random()` returns on this attempt, and the request's duration. -/
structure StepInput where
  net : NetResult
  rand : ℚ
  duration : ℚ
deriving DecidableEq, Repr

/-- Which code path performed a sleep inside `_request_json`. -/
inductive SleepKind where
  | backoff
  | retryAfterExact (server : ℚ)
  | parseRetry
  | afterEach
deriving DecidableEq, Repr

/-- One `_sleep_exact` call performed by `_request_json`, with the seconds
requested, the elapsed wall-clock time when it happened, and the values of
the `delay` variable and of `random.random()` at that point. -/
structure SleepEvent where
  kind : SleepKind
  seconds : ℚ
  elapsedBefore : ℚ
  delayUsed : ℚ
  randUsed : ℚ
deriving DecidableEq, Repr

/-- Loop body of `_request_json` (run_fetch.py lines 869-940).  Arguments
mirror the Python locals: the remaining script, `attempt`, `delay`, and the
elapsed time `time.monotonic() - start`.  An exhausted script models a loop
that would keep issuing requests; it is reported as a distinguished error. -/
def requestJsonGo (p : RetryPolicy) (afterEachSleep : ℚ) :
    List StepInput → Nat → ℚ → ℚ → Except String String × List SleepEvent
  | [], _, _, _ => (Except.error "模型：请求脚本耗尽", [])
  | step :: rest, attempt, delay, elapsed =>
    let attempt1 := attempt + 1
    let elapsed1 := elapsed + step.duration
    match step.net with
    | NetResult.transportError msg =>
        if p.retries < attempt1 then
          (Except.error ("HTTP 请求失败（已重试 " ++ toString (attempt1 - 1) ++
            " 次）: " ++ msg), [])
        else
          let s := min (delay * (1 + step.rand * p.jitter)) p.maxSleep
          if deadlineWouldBeExceeded p elapsed1 s then
            (Except.error "HTTP 请求失败：超过重试预算", [])
          else
            let res := requestJsonGo p afterEachSleep rest attempt1
              (delay * p.backoffFactor) (elapsed1 + s)
            (res.1, ⟨SleepKind.backoff, s, elapsed1, delay, step.rand⟩ :: res.2)
    | NetResult.response status retryAfterHdr body text =>
        if status ∈ p.statusForcelist then
          let retryAfter := if status = 429 then retryAfterHdr else Option.none
          if p.retries < attempt1 ∧ 400 ≤ status then
            (Except.error ("HTTP 状态错误: " ++ toString status), [])
          else
            let s := match retryAfter with
              | some v => v
              | Option.none => min (delay * (1 + step.rand * p.jitter)) p.maxSleep
            if deadlineWouldBeExceeded p elapsed1 s ∧ 400 ≤ status then
              (Except.error ("HTTP 状态错误: " ++ toString status), [])
            else
              let res := requestJsonGo p afterEachSleep rest attempt1
                (delay * p.backoffFactor) (elapsed1 + s)
              let kind := match retryAfter with
                | some v => SleepKind.retryAfterExact v
                | Option.none => SleepKind.backoff
              (res.1, ⟨kind, s, elapsed1, delay, step.rand⟩ :: res.2)
        else if 400 ≤ status then
          (Except.error ("HTTP 状态错误: " ++ toString status ++ " " ++
            (if text = "" then "HTTPError" else text)), [])
        else
          match body with
          | some payload =>
              if 0 < afterEachSleep then
                (Except.ok payload,
                 [⟨SleepKind.afterEach, afterEachSleep, elapsed1, delay, step.rand⟩])
              else (Except.ok payload, [])
          | Option.none =>
              if attempt1 ≤ p.retries then
                let s := min ((1/2) * (1 + step.rand)) 1
                let res := requestJsonGo p afterEachSleep rest attempt1 delay
                  (elapsed1 + s)
                (res.1, ⟨SleepKind.parseRetry, s, elapsed1, delay, step.rand⟩ :: res.2)
              else (Except.error "响应解析失败（JSON）", [])

/-- `_request_json` with a scripted network: start at `attempt = 0`,
`delay = policy.backoff_start`, zero elapsed time. -/
def requestJson (p : RetryPolicy) (afterEachSleep : ℚ) (script : List StepInput) :
    Except String String × List SleepEvent :=
  requestJsonGo p afterEachSleep script 0 p.backoffStart 0

/-- The guarantees one `_sleep_exact` call inside `_request_json`'s retry
paths satisfies: a backoff sleep is exactly
`min(delay * (1 + random * jitter), max_sleep)` (hence capped by
`max_sleep`) with `delay` on the geometric schedule
`backoff_start * backoff_factor ^ k`; a `Retry-After` sleep is exactly the
server-supplied value; and both kinds are only performed after the
hard-deadline check passed. -/
def SleepEventOk (p : RetryPolicy) (ev : SleepEvent) : Prop :=
  (ev.kind = SleepKind.backoff →
      ev.seconds = min (ev.delayUsed * (1 + ev.randUsed * p.jitter)) p.maxSleep ∧
      ev.seconds ≤ p.maxSleep ∧
      ∃ k : Nat, ev.delayUsed = p.backoffStart * p.backoffFactor ^ k) ∧
  (∀ v, ev.kind = SleepKind.retryAfterExact v → ev.seconds = v) ∧
  ((ev.kind = SleepKind.backoff ∨ ∃ v, ev.kind = SleepKind.retryAfterExact v) →
      deadlineWouldBeExceeded p ev.elapsedBefore ev.seconds = false)


lemma requestJsonGo_sleep_invariant (p : RetryPolicy) (aes : ℚ)
    (hforce : ∀ c ∈ p.statusForcelist, 400 ≤ c) :
    ∀ (script : List StepInput) (attempt : Nat) (delay elapsed : ℚ),
      (∃ k : Nat, delay = p.backoffStart * p.backoffFactor ^ k) →
      ∀ ev ∈ (requestJsonGo p aes script attempt delay elapsed).2,
        SleepEventOk p ev := by
  intro script
  induction script with
  | nil =>
      intro attempt delay elapsed hdelay ev hev
      simp [requestJsonGo] at hev
  | cons step rest ih =>
      intro attempt delay elapsed hdelay ev hev
      obtain ⟨k, hk⟩ := hdelay
      have hnext : ∃ j : Nat,
          delay * p.backoffFactor = p.backoffStart * p.backoffFactor ^ j :=
        ⟨k + 1, by rw [hk]; ring⟩
      cases hnet : step.net with
      | transportError msg =>
          simp only [requestJsonGo, hnet] at hev
          by_cases h1 : p.retries < attempt + 1
          · simp only [if_pos h1] at hev
            simp at hev
          · simp only [if_neg h1] at hev
            by_cases h2 : deadlineWouldBeExceeded p (elapsed + step.duration)
                (min (delay * (1 + step.rand * p.jitter)) p.maxSleep) = true
            · simp only [if_pos h2] at hev
              simp at hev
            · simp only [if_neg h2] at hev
              simp only [List.mem_cons] at hev
              rcases hev with hhd | htl
              · subst hhd
                exact ⟨fun _ => ⟨rfl, min_le_right _ _, ⟨k, hk⟩⟩,
                  fun v hv => by simp at hv,
                  fun _ => by simpa using h2⟩
              · exact ih (attempt + 1) (delay * p.backoffFactor) _ hnext ev htl
      | response status retryAfterHdr body text =>
          simp only [requestJsonGo, hnet] at hev
          by_cases hmem : status ∈ p.statusForcelist
          · have hstatus : 400 ≤ status := hforce status hmem
            simp only [if_pos hmem] at hev
            by_cases hover : p.retries < attempt + 1 ∧ 400 ≤ status
            · simp only [if_pos hover] at hev
              simp at hev
            · simp only [if_neg hover] at hev
              cases hra : (if status = 429 then retryAfterHdr else Option.none) with
              | none =>
                  rw [hra] at hev
                  by_cases h2 : deadlineWouldBeExceeded p (elapsed + step.duration)
                      (min (delay * (1 + step.rand * p.jitter)) p.maxSleep) = true
                  · rw [if_pos ⟨h2, hstatus⟩] at hev
                    simp at hev
                  · have hcond : ¬(deadlineWouldBeExceeded p (elapsed + step.duration)
                        (min (delay * (1 + step.rand * p.jitter)) p.maxSleep) = true ∧
                        400 ≤ status) := fun hc => h2 hc.1
                    rw [if_neg hcond] at hev
                    simp only [List.mem_cons] at hev
                    rcases hev with hhd | htl
                    · subst hhd
                      exact ⟨fun _ => ⟨rfl, min_le_right _ _, ⟨k, hk⟩⟩,
                        fun v hv => by simp at hv,
                        fun _ => by simpa using h2⟩
                    · exact ih (attempt + 1) (delay * p.backoffFactor) _ hnext ev htl
              | some v =>
                  rw [hra] at hev
                  by_cases h2 : deadlineWouldBeExceeded p (elapsed + step.duration)
                      v = true
                  · rw [if_pos ⟨h2, hstatus⟩] at hev
                    simp at hev
                  · have hcond : ¬(deadlineWouldBeExceeded p (elapsed + step.duration)
                        v = true ∧ 400 ≤ status) := fun hc => h2 hc.1
                    rw [if_neg hcond] at hev
                    simp only [List.mem_cons] at hev
                    rcases hev with hhd | htl
                    · subst hhd
                      exact ⟨fun hkind => by simp at hkind,
                        fun w hw => by
                          simp only [SleepEvent.seconds]
                          simp only [SleepKind.retryAfterExact.injEq] at hw
                          rw [hw],
                        fun _ => by simpa using h2⟩
                    · exact ih (attempt + 1) (delay * p.backoffFactor) _ hnext ev htl
          · simp only [if_neg hmem] at hev
            by_cases h400 : 400 ≤ status
            · simp only [if_pos h400] at hev
              simp at hev
            · simp only [if_neg h400] at hev
              cases body with
              | some payload =>
                  by_cases haes : 0 < aes
                  · simp only [if_pos haes] at hev
                    simp only [List.mem_cons] at hev
                    rcases hev with hhd | htl
                    · subst hhd
                      exact ⟨fun hkind => by simp at hkind,
                        fun v hv => by simp at hv,
                        fun hor => by
                          rcases hor with hkind | ⟨v, hv⟩
                          · simp at hkind
                          · simp at hv⟩
                    · simp at htl
                  · simp only [if_neg haes] at hev
                    simp at hev
              | none =>
                  by_cases hra2 : attempt + 1 ≤ p.retries
                  · simp only [if_pos hra2] at hev
                    simp only [List.mem_cons] at hev
                    rcases hev with hhd | htl
                    · subst hhd
                      exact ⟨fun hkind => by simp at hkind,
                        fun v hv => by simp at hv,
                        fun hor => by
                          rcases hor with hkind | ⟨v, hv⟩
                          · simp at hkind
                          · simp at hv⟩
                    · exact ih (attempt + 1) delay _ ⟨k, hk⟩ ev htl
                  · simp only [if_neg hra2] at hev
                    simp at hev

/-- The policy used in the C2 counterexample: default retries/backoff but a
small `max_sleep` of `1/10` and a hard deadline of `1/100` seconds. -/
def parseRetryPolicy : RetryPolicy :=
  ⟨3, 3/5, 2, 3/10, [408, 409, 425, 429, 500, 502, 503, 504], 1/10, 15,
   some (1/100)⟩

/-- A scripted network where the first response is HTTP 200 with a body that
is not valid JSON, and the second parses fine. -/
def parseFailScript : List StepInput :=
  [⟨NetResult.response 200 Option.none Option.none "", 0, 0⟩,
   ⟨NetResult.response 200 Option.none (some "ok") "", 0, 0⟩]

/-- A scripted network with one transport error followed by a success. -/
def transportOnceScript : List StepInput :=
  [⟨NetResult.transportError "连接超时", 0, 0⟩,
   ⟨NetResult.response 200 Option.none (some "ok") "", 0, 0⟩]

/-- **C2 counterexample.** The claim fails as stated: a response that arrives
with HTTP 200 but whose body is not valid JSON triggers the parse-failure
retry path (run_fetch.py lines 930-935), which sleeps
`min(0.5 * (1 + random.random()), 1.0)` via `_sleep_exact` without checking
`hard_deadline` and without applying the `max_sleep` cap.  Concretely, with
`max_sleep = 1/10` and `hard_deadline = 1/100`, the code sleeps for `1/2`
seconds—exceeding `max_sleep`, and sleeping although the pending sleep
already exceeded the hard deadline—and then succeeds instead of failing
immediately. -/
theorem requestJson_parse_retry_skips_deadline_and_cap :
    (requestJson parseRetryPolicy 0 parseFailScript).1 = Except.ok "ok" ∧
    ((requestJson parseRetryPolicy 0 parseFailScript).2.map
      SleepEvent.seconds) = [1/2] ∧
    parseRetryPolicy.maxSleep < 1/2 ∧
    deadlineWouldBeExceeded parseRetryPolicy 0 (1/2) = true := by
  norm_num [requestJson, requestJsonGo, parseRetryPolicy, parseFailScript,
    deadlineWouldBeExceeded, min_def]

/-- **C2 (amended).** For every retry policy whose retryable status codes are
all `≥ 400` (true of every policy the module defines), every sleep that
`_request_json` performs on the transport-error and retryable-status paths
is `min(backoff_start * backoff_factor ^ k * (1 + random * jitter),
max_sleep)`—hence never exceeds `max_sleep`—except that an explicit
`Retry-After` from a 429 response is honored exactly; and each such sleep is
performed only after checking that the elapsed wall-clock time plus the
pending sleep does not exceed `hard_deadline` (otherwise the request fails
without sleeping).  The JSON parse-failure retry path is excluded: it sleeps
`min(0.5 * (1 + random), 1.0)` without consulting `max_sleep` or the
deadline. -/
theorem requestJson_backoff_capped_and_deadline_checked
    (p : RetryPolicy) (aes : ℚ) (script : List StepInput)
    (hforce : ∀ c ∈ p.statusForcelist, 400 ≤ c) :
    ∀ ev ∈ (requestJson p aes script).2, SleepEventOk p ev :=
  requestJsonGo_sleep_invariant p aes hforce script 0 p.backoffStart 0
    ⟨0, by ring⟩

/-- Witness for C2 (amended): the default policy on a script with one
transport error; the single backoff sleep of `3/5` seconds satisfies the
formula, the cap and the deadline check. -/
theorem requestJson_backoff_capped_witness :
    SleepEventOk RETRY_DEFAULT ⟨SleepKind.backoff, 3/5, 0, 3/5, 0⟩ := by
  have htrace : (requestJson RETRY_DEFAULT 0 transportOnceScript).2 =
      [⟨SleepKind.backoff, 3/5, 0, 3/5, 0⟩] := by
    norm_num [requestJson, requestJsonGo, RETRY_DEFAULT, transportOnceScript,
      deadlineWouldBeExceeded, min_def]
  exact requestJson_backoff_capped_and_deadline_checked RETRY_DEFAULT 0
    transportOnceScript (by decide) ⟨SleepKind.backoff, 3/5, 0, 3/5, 0⟩
    (htrace ▸ List.mem_singleton.mpr rfl)

/-- **C9 counterexample.** With the throttle-disable flag set, `_sleep` is
indeed a no-op, but the resilience layer's backoff sleeps are performed by
`_sleep_exact` (run_fetch.py lines 894, 918, 934, 939), which never consults
`THROTTLE_DISABLED`—the flag does not even occur in its definition—so a
retried request still blocks for the full backoff duration (here `3/5`
seconds under the default policy).  Hence not every internal ETL sleep is a
no-op under `DM_DISABLE_THROTTLE`. -/
theorem throttle_flag_does_not_silence_backoff_sleeps :
    etlSleep true (3/5) = 0 ∧
    ((requestJson RETRY_DEFAULT 0 transportOnceScript).2.map
      (fun ev => sleepExact ev.seconds)) = [3/5] ∧
    ((3 : ℚ)/5) ≠ 0 := by
  norm_num [requestJson, requestJsonGo, RETRY_DEFAULT, transportOnceScript,
    deadlineWouldBeExceeded, min_def, etlSleep, sleepExact]

/-- **C9 (amended).** The throttle-disable flag silences exactly the sleeps
routed through `_sleep` (the inter-call politeness delays at run_fetch.py
lines 1130, 2310 and 2444): with the flag set, `_sleep` never blocks.  The
sleeps routed through `_sleep_exact`—the resilience layer's backoff,
`Retry-After` and parse-retry waits and the `after_each_sleep` politeness
delay—ignore the flag and block for the full requested duration whenever it
is positive. -/
theorem throttle_flag_silences_politeness_sleeps_only :
    (∀ s : ℚ, etlSleep true s = 0) ∧ (∀ s : ℚ, 0 < s → sleepExact s = s) := by
  constructor
  · intro s
    simp [etlSleep]
  · intro s hs
    simp [sleepExact, hs]

/-- Witness for C9 (amended) at `s = 5`. -/
theorem throttle_flag_silences_politeness_sleeps_only_witness :
    etlSleep true 5 = 0 ∧ sleepExact 5 = 5 :=
  ⟨throttle_flag_silences_politeness_sleeps_only.1 5,
   throttle_flag_silences_politeness_sleeps_only.2 5 (by norm_num)⟩

/-! ## ETL orchestrator (`run`, run_fetch.py lines 3147-3478)

The filesystem state relevant to the day-marker logic: the
`state/fetch_{day}` marker, the three artifact files
(`raw_market.json`, `raw_events.json`, `etl_status.json`), with the status
file's parse outcome and recorded date made explicit.  The whole acquisition
phase (lines 3194-3413) is abstracted into a `FetchOutcome`: the payloads it
would produce and whether every required source succeeded
(`overall_ok`); the skip path never consumes it, which models "no network
activity". -/

/-- Contents of `out/etl_status.json` as seen by the skip check
(run_fetch.py lines 3178-3186): either unparseable JSON or a parsed payload
with its `date` field and `ok` flag. -/
inductive StatusFileState where
  | corrupt
  | parsed (date : Option String) (ok : Bool)
deriving DecidableEq, Repr

/-- The durable artifacts of one ETL run: day marker plus the three files. -/
structure EtlArtifacts where
  marker : Bool
  rawMarket : Option String
  rawEvents : Option String
  statusFile : Option StatusFileState
deriving DecidableEq, Repr

/-- Outcome of the acquisition phase, had it run: the two payloads written to
`raw_market.json` / `raw_events.json` and the `overall_ok` flag. -/
structure FetchOutcome where
  marketPayload : String
  eventsPayload : String
  overallOk : Bool
deriving DecidableEq, Repr

/-- Result of one ETL invocation (the process exit code is 0 either way). -/
inductive EtlRunResult where
  | cachedSkip
  | completed (degraded : Bool)
deriving DecidableEq, Repr

/-- The `skip_run` computation (run_fetch.py lines 3170-3186): marker must
exist, all three artifact files must exist, and the status file must parse
with `date` equal to the trading day. -/
def etlSkipRun (day : String) (fs : EtlArtifacts) : Bool :=
  let skip1 := fs.marker
  let skip2 :=
    if skip1 ∧ ¬(fs.rawMarket.isSome ∧ fs.rawEvents.isSome ∧ fs.statusFile.isSome)
    then false else skip1
  if skip2 ∧ fs.statusFile.isSome then
    match fs.statusFile with
    | some StatusFileState.corrupt => false
    | some (StatusFileState.parsed d _) => if d = some day then skip2 else false
    | Option.none => skip2
  else skip2

/-- The artifact state after the execute path ran to completion
(run_fetch.py lines 3421-3459): all three files rewritten—the status file
with `date = trading_day` and `ok = overall_ok`—and the marker touched
last. -/
def etlExecutedState (day : String) (fetch : FetchOutcome) : EtlArtifacts :=
  { marker := true,
    rawMarket := some fetch.marketPayload,
    rawEvents := some fetch.eventsPayload,
    statusFile := some (StatusFileState.parsed (some day) fetch.overallOk) }

/-- `run(argv)` restricted to its durable-state behaviour (run_fetch.py
lines 3170-3478): without `--force`, a satisfied skip check returns
`cached-skip` untouched; otherwise the acquisition runs and every artifact
is rewritten, the day marker last. -/
def etlRun (force : Bool) (day : String) (fetch : FetchOutcome)
    (fs : EtlArtifacts) : EtlRunResult × EtlArtifacts :=
  if ¬force ∧ etlSkipRun day fs then (EtlRunResult.cachedSkip, fs)
  else (EtlRunResult.completed (!fetch.overallOk), etlExecutedState day fetch)

lemma etlSkipRun_iff (day : String) (fs : EtlArtifacts) :
    etlSkipRun day fs = true ↔
    fs.marker = true ∧ fs.rawMarket.isSome = true ∧ fs.rawEvents.isSome = true ∧
    ∃ ok, fs.statusFile = some (StatusFileState.parsed (some day) ok) := by
  obtain ⟨m, rm, re, sf⟩ := fs
  cases sf with
  | none => cases m <;> cases rm <;> cases re <;> simp [etlSkipRun]
  | some s =>
      cases s with
      | corrupt => cases m <;> cases rm <;> cases re <;> simp [etlSkipRun]
      | parsed d ok =>
          cases m <;> cases rm <;> cases re <;>
            by_cases hd : d = some day <;>
            simp [etlSkipRun, hd]

/-- **C3.** Without `--force`: if the day marker exists, all three artifact
files exist, and the status file parses with its recorded date equal to the
trading day, the run transitions to `cached-skip` leaving every artifact
unchanged and never looks at the network (the result is the same whatever
the acquisition would have produced); if any of those conditions fails the
run executes as if no marker existed, rewriting all artifacts.
Consequently a second same-day invocation without force—after any first
invocation whatsoever—is a `cached-skip` that leaves the first run's
artifacts byte-for-byte unchanged. -/
theorem etlRun_cached_skip_and_idempotent
    (day : String) (fetch : FetchOutcome) (fs : EtlArtifacts)
    (hskip : fs.marker = true ∧ fs.rawMarket.isSome = true ∧
      fs.rawEvents.isSome = true ∧
      ∃ ok, fs.statusFile = some (StatusFileState.parsed (some day) ok)) :
    (etlRun false day fetch fs = (EtlRunResult.cachedSkip, fs) ∧
     ∀ fetch2, etlRun false day fetch2 fs = (EtlRunResult.cachedSkip, fs)) ∧
    (∀ fs2 : EtlArtifacts,
      ¬(fs2.marker = true ∧ fs2.rawMarket.isSome = true ∧
        fs2.rawEvents.isSome = true ∧
        ∃ ok, fs2.statusFile = some (StatusFileState.parsed (some day) ok)) →
      etlRun false day fetch fs2 =
        (EtlRunResult.completed (!fetch.overallOk), etlExecutedState day fetch)) ∧
    (∀ (force1 : Bool) (fetch1 fetch2 : FetchOutcome) (fs0 : EtlArtifacts),
      etlRun false day fetch2 (etlRun force1 day fetch1 fs0).2 =
        (EtlRunResult.cachedSkip, (etlRun force1 day fetch1 fs0).2)) := by
  have hskipb : etlSkipRun day fs = true := (etlSkipRun_iff day fs).mpr hskip
  refine ⟨⟨?_, ?_⟩, ?_, ?_⟩
  · simp [etlRun, hskipb]
  · intro fetch2
    simp [etlRun, hskipb]
  · intro fs2 hno
    have : etlSkipRun day fs2 = false := by
      rcases Bool.eq_false_or_eq_true (etlSkipRun day fs2) with h | h
      · exact absurd ((etlSkipRun_iff day fs2).mp h) hno
      · exact h
    simp [etlRun, this]
  · intro force1 fetch1 fetch2 fs0
    by_cases h1 : ¬force1 ∧ etlSkipRun day fs0 = true
    · have : etlRun force1 day fetch1 fs0 = (EtlRunResult.cachedSkip, fs0) := by
        simp [etlRun, h1.1, h1.2]
      rw [this]
      simp [etlRun, h1.2]
    · have hexec : etlRun force1 day fetch1 fs0 =
          (EtlRunResult.completed (!fetch1.overallOk),
           etlExecutedState day fetch1) := by
        simp only [etlRun]
        rw [if_neg]
        exact fun hc => h1 ⟨hc.1, hc.2⟩
      rw [hexec]
      have : etlSkipRun day (etlExecutedState day fetch1) = true := by
        apply (etlSkipRun_iff day _).mpr
        exact ⟨rfl, rfl, rfl, fetch1.overallOk, rfl⟩
      simp [etlRun, this]

/-- Witness for C3: a first (forced) run followed by a force-free rerun of
the same day skips and leaves the artifacts unchanged. -/
theorem etlRun_cached_skip_and_idempotent_witness :
    (etlRun false "2024-01-02" ⟨"m", "e", true⟩
      ⟨true, some "m", some "e",
       some (StatusFileState.parsed (some "2024-01-02") true)⟩ =
      (EtlRunResult.cachedSkip,
       ⟨true, some "m", some "e",
        some (StatusFileState.parsed (some "2024-01-02") true)⟩)) ∧
    etlRun false "2024-01-02" ⟨"m2", "e2", false⟩
      (etlRun true "2024-01-02" ⟨"m", "e", true⟩ ⟨false, Option.none,
        Option.none, Option.none⟩).2 =
      (EtlRunResult.cachedSkip,
       (etlRun true "2024-01-02" ⟨"m", "e", true⟩ ⟨false, Option.none,
        Option.none, Option.none⟩).2) := by
  constructor
  · exact (etlRun_cached_skip_and_idempotent "2024-01-02" ⟨"m", "e", true⟩
      ⟨true, some "m", some "e",
       some (StatusFileState.parsed (some "2024-01-02") true)⟩
      ⟨rfl, rfl, rfl, true, rfl⟩).1.1
  · exact (etlRun_cached_skip_and_idempotent "2024-01-02" ⟨"m", "e", true⟩
      ⟨true, some "m", some "e",
       some (StatusFileState.parsed (some "2024-01-02") true)⟩
      ⟨rfl, rfl, rfl, true, rfl⟩).2.2 true ⟨"m", "e", true⟩ ⟨"m2", "e2", false⟩
      ⟨false, Option.none, Option.none, Option.none⟩

/-! ## Scoring orchestrator (`run`, run_scores.py lines 411-630)

The strict-mode flag of the pipeline lives here: `STRICT` in the
environment.  The durable state is the `state/done_{day}` marker and the
four files the scoring stage writes; the inputs are what it reads from the
ETL stage's outputs. -/

/-- What the scoring stage reads (run_scores.py lines 437-446): the `ok`
flag of `etl_status.json` (`False` when the file or key is missing) and
whether `raw_market.json` / `raw_events.json` loaded non-empty. -/
structure ScoringInputs where
  etlOk : Bool
  rawMarketNonempty : Bool
  rawEventsNonempty : Bool
deriving DecidableEq, Repr

/-- The scoring stage's durable writes (run_scores.py lines 586-599):
`scores.json` is recorded with its date and degraded flag, then
`actions.json`, the two history files, and last the `done_{day}` marker. -/
structure ScoringState where
  doneMarker : Bool
  scoresWritten : Option (String × Bool)
  actionsWritten : Option String
  sentimentHistoryWritten : Bool
  scoreHistoryWritten : Bool
deriving DecidableEq, Repr

/-- Result of one scoring invocation. -/
inductive ScoringResult where
  | cachedSkip
  | failed
  | completed
deriving DecidableEq, Repr

/-- `degraded` (run_scores.py lines 441-443): the ETL status' `ok` flag is
false or missing, or `raw_market.json` is missing/empty. -/
def scoringDegraded (inp : ScoringInputs) : Bool :=
  !inp.etlOk || !inp.rawMarketNonempty

/-- `run(argv)` of the scoring stage restricted to its durable-state
behaviour (run_scores.py lines 424-630): cached skip on an existing marker
without `--force`; strict abort with exit code 2 before any write when
degraded and `STRICT` is set; otherwise write everything with the marker
last and exit 0. -/
def scoringRun (force strict : Bool) (day : String) (inp : ScoringInputs)
    (st : ScoringState) : Nat × ScoringResult × ScoringState :=
  if st.doneMarker = true ∧ ¬force then (0, ScoringResult.cachedSkip, st)
  else
    if scoringDegraded inp = true ∧ strict = true then
      (2, ScoringResult.failed, st)
    else
      (0, ScoringResult.completed,
       { doneMarker := true,
         scoresWritten := some (day, scoringDegraded inp),
         actionsWritten := some day,
         sentimentHistoryWritten := true,
         scoreHistoryWritten := true })

/-- **C4.** Whenever the strict-mode flag is set and the run is degraded
(the ETL status was not ok, or the market document is missing), a scoring
run that is not a cached skip transitions directly to `failed` (exit code
2) and aborts before any durable write: the `done_{day}` marker is not
written, and `scores.json`—the report that would carry the degraded/ok
verdict—is not finalized; the entire durable state is exactly as before the
invocation. -/
theorem scoringRun_strict_degraded_aborts_before_marker
    (force : Bool) (day : String) (inp : ScoringInputs) (st : ScoringState)
    (hnotcached : ¬(st.doneMarker = true ∧ ¬force))
    (hdeg : scoringDegraded inp = true) :
    scoringRun force true day inp st = (2, ScoringResult.failed, st) ∧
    (scoringRun force true day inp st).2.2.doneMarker = st.doneMarker ∧
    (scoringRun force true day inp st).2.2.scoresWritten = st.scoresWritten := by
  have h : scoringRun force true day inp st = (2, ScoringResult.failed, st) := by
    unfold scoringRun
    rw [if_neg hnotcached, if_pos ⟨hdeg, rfl⟩]
  exact ⟨h, by rw [h], by rw [h]⟩

/-- Witness for C4: strict mode plus a degraded ETL status on a fresh day
aborts with exit 2, no marker, no scores file. -/
theorem scoringRun_strict_degraded_aborts_witness :
    scoringRun false true "2024-01-02" ⟨false, true, true⟩
      ⟨false, Option.none, Option.none, false, false⟩ =
      (2, ScoringResult.failed,
       ⟨false, Option.none, Option.none, false, false⟩) :=
  (scoringRun_strict_degraded_aborts_before_marker false "2024-01-02"
    ⟨false, true, true⟩ ⟨false, Option.none, Option.none, false, false⟩
    (by simp) (by simp [scoringDegraded])).1

/-! ## Fundamentals merger (`_fetch_theme_metrics_from_fmp`,
run_fetch.py lines 2457-2752)

A per-symbol fundamentals record with the four required fields.  A missing
per-symbol dict and a per-field `None` both appear as `Option.none`; Python
treats `0.0` as a separate "effectively missing" sentinel via
`value in (None, 0.0)`. -/

/-- One `FundamentalsRecord` (run_fetch.py lines 2525-2530): the four
required fields, each independently nullable. -/
structure FundRecord where
  revenueTtm : Option ℚ
  netIncomeTtm : Option ℚ
  sharesDilutedLatest : Option ℚ
  equityLatest : Option ℚ
deriving DecidableEq, Repr

/-- Python's `value in (None, 0.0)` test used throughout the merger. -/
def isNullOrZero (v : Option ℚ) : Bool :=
  match v with
  | Option.none => true
  | some q => q = 0

/-- `needs_fmp` membership (run_fetch.py lines 2531-2537): the secondary
source is consulted for a symbol iff the primary record is missing or any
of the four required fields is null/zero. -/
def needsFmp (primary : Option FundRecord) : Bool :=
  match primary with
  | Option.none => true
  | some m =>
      isNullOrZero m.netIncomeTtm || isNullOrZero m.revenueTtm ||
      isNullOrZero m.sharesDilutedLatest || isNullOrZero m.equityLatest

/-- One iteration of the merge loop (run_fetch.py lines 2544-2549): a `None`
incoming value is skipped; otherwise the incoming value is stored iff the
existing one is null/zero. -/
def mergeField (existing incoming : Option ℚ) : Option ℚ :=
  match incoming with
  | Option.none => existing
  | some v => if isNullOrZero existing then some v else existing

/-- The per-symbol merge of the FMP record into the EDGAR-derived record
(run_fetch.py lines 2542-2549); `fundamentals.setdefault(symbol, {})` turns
a missing primary record into an all-null one. -/
def mergeFmp (primary : Option FundRecord) (fmp : FundRecord) : FundRecord :=
  let base := primary.getD ⟨Option.none, Option.none, Option.none, Option.none⟩
  { revenueTtm := mergeField base.revenueTtm fmp.revenueTtm,
    netIncomeTtm := mergeField base.netIncomeTtm fmp.netIncomeTtm,
    sharesDilutedLatest :=
      mergeField base.sharesDilutedLatest fmp.sharesDilutedLatest,
    equityLatest := mergeField base.equityLatest fmp.equityLatest }

/-- **C5 counterexample.** A field the primary source supplied *is*
overwritten by the secondary source when the primary's value is `0.0`: with
EDGAR reporting `net_income_ttm = 0.0` and FMP reporting `5`, the merged
record carries `5`, because the merge treats `0.0` like a missing value
(`existing in (None, 0.0)`, run_fetch.py line 2548).  So "never overwritten,
even if the secondary source reports a different value" fails as stated. -/
theorem mergeFmp_overwrites_zero_primary_field :
    (mergeFmp (some ⟨some 10, some 0, some 3, some 4⟩)
      ⟨Option.none, some 5, Option.none, Option.none⟩).netIncomeTtm = some 5 ∧
    (⟨some 10, some 0, some 3, some 4⟩ : FundRecord).netIncomeTtm = some 0 ∧
    (some (5 : ℚ) ≠ some (0 : ℚ)) := by
  refine ⟨?_, rfl, by norm_num⟩
  norm_num [mergeFmp, mergeField, isNullOrZero]

/-- **C5 (amended).** A field the primary source supplied with a non-null,
non-zero value is never overwritten by the secondary source, even if the
secondary source reports a different value (a primary `0.0` counts as
missing and may be replaced); and the secondary source is consulted exactly
for the symbols whose primary record is missing or has a null/zero value in
one of the four required fields. -/
theorem mergeFmp_preserves_nonzero_primary_fields
    (m : FundRecord) (fmp : FundRecord) (v : ℚ) (hv : v ≠ 0) :
    (m.revenueTtm = some v → (mergeFmp (some m) fmp).revenueTtm = some v) ∧
    (m.netIncomeTtm = some v → (mergeFmp (some m) fmp).netIncomeTtm = some v) ∧
    (m.sharesDilutedLatest = some v →
      (mergeFmp (some m) fmp).sharesDilutedLatest = some v) ∧
    (m.equityLatest = some v → (mergeFmp (some m) fmp).equityLatest = some v) ∧
    (∀ primary : Option FundRecord,
      needsFmp primary = true ↔
        primary = Option.none ∨
        ∃ m2, primary = some m2 ∧
          (isNullOrZero m2.netIncomeTtm = true ∨
           isNullOrZero m2.revenueTtm = true ∨
           isNullOrZero m2.sharesDilutedLatest = true ∨
           isNullOrZero m2.equityLatest = true)) := by
  have hfield : ∀ inc : Option ℚ, mergeField (some v) inc = some v := by
    intro inc
    cases inc with
    | none => rfl
    | some w => simp [mergeField, isNullOrZero, hv]
  refine ⟨?_, ?_, ?_, ?_, ?_⟩
  · intro h
    simp [mergeFmp, h, hfield]
  · intro h
    simp [mergeFmp, h, hfield]
  · intro h
    simp [mergeFmp, h, hfield]
  · intro h
    simp [mergeFmp, h, hfield]
  · intro primary
    cases primary with
    | none => simp [needsFmp]
    | some m2 =>
        simp only [needsFmp, Bool.or_eq_true]
        constructor
        · intro h
          exact Or.inr ⟨m2, rfl, by tauto⟩
        · intro h
          rcases h with h | ⟨m3, hm3, h⟩
          · exact absurd h (by simp)
          · injection hm3 with hmm
            subst hmm
            tauto

/-- Witness for C5 (amended): a primary record with all four fields
non-zero survives an FMP record reporting different values, and a record
with a zero `net_income_ttm` is flagged for FMP consultation. -/
theorem mergeFmp_preserves_nonzero_primary_fields_witness :
    (mergeFmp (some ⟨some 7, some 7, some 7, some 7⟩)
      ⟨some 1, some 2, some 3, some 4⟩).revenueTtm = some 7 ∧
    needsFmp (some ⟨some 10, some 0, some 3, some 4⟩) = true := by
  have h := mergeFmp_preserves_nonzero_primary_fields
    ⟨some 7, some 7, some 7, some 7⟩ ⟨some 1, some 2, some 3, some 4⟩ 7
    (by norm_num)
  refine ⟨h.1 rfl, ?_⟩
  refine (h.2.2.2.2 (some ⟨some 10, some 0, some 3, some 4⟩)).mpr ?_
  exact Or.inr ⟨⟨some 10, some 0, some 3, some 4⟩, rfl, Or.inl (by
    norm_num [isNullOrZero])⟩

/-! ## Derived valuation ratios (run_fetch.py lines 2583-2602)

Python's `/` raises `ZeroDivisionError` on a zero denominator; `pyDiv` makes
that fault explicit so that "never raises" is a provable statement. -/

/-- Python float division: faults on a zero denominator. -/
def pyDiv (a b : ℚ) : Except String ℚ :=
  if b = 0 then Except.error "float division by zero" else Except.ok (a / b)

lemma pyDiv_ok (a b : ℚ) (hb : b ≠ 0) : pyDiv a b = Except.ok (a / b) := by
  simp [pyDiv, hb]

/-- `computed_pe` (run_fetch.py lines 2591-2598): requires price, net income
and a non-null, non-zero share count; `eps = net_income / shares`; the ratio
is `price / eps` only when `eps` is non-null and non-zero. -/
def computedPe (price : Option ℚ) (metrics : Option FundRecord) :
    Except String (Option ℚ) :=
  match metrics with
  | Option.none => Except.ok Option.none
  | some m =>
      match price, m.netIncomeTtm, m.sharesDilutedLatest with
      | some p, some ni, some sh =>
          if sh = 0 then Except.ok Option.none
          else
            match pyDiv ni sh with
            | Except.error e => Except.error e
            | Except.ok eps =>
                if eps = 0 then Except.ok Option.none
                else
                  match pyDiv p eps with
                  | Except.error e => Except.error e
                  | Except.ok pe => Except.ok (some pe)
      | _, _, _ => Except.ok Option.none

/-- `computed_ps` (run_fetch.py lines 2599-2600): `market_cap / revenue`
only when both are non-null and non-zero. -/
def computedPs (marketCap : Option ℚ) (metrics : Option FundRecord) :
    Except String (Option ℚ) :=
  match metrics with
  | Option.none => Except.ok Option.none
  | some m =>
      match marketCap, m.revenueTtm with
      | some mc, some rev =>
          if mc = 0 ∨ rev = 0 then Except.ok Option.none
          else
            match pyDiv mc rev with
            | Except.error e => Except.error e
            | Except.ok ps => Except.ok (some ps)
      | _, _ => Except.ok Option.none

/-- `computed_pb` (run_fetch.py lines 2601-2602): `market_cap / equity`
only when both are non-null and non-zero. -/
def computedPb (marketCap : Option ℚ) (metrics : Option FundRecord) :
    Except String (Option ℚ) :=
  match metrics with
  | Option.none => Except.ok Option.none
  | some m =>
      match marketCap, m.equityLatest with
      | some mc, some eq =>
          if mc = 0 ∨ eq = 0 then Except.ok Option.none
          else
            match pyDiv mc eq with
            | Except.error e => Except.error e
            | Except.ok pb => Except.ok (some pb)
      | _, _ => Except.ok Option.none

/-- **C6.** For every combination of price, market cap and fundamentals
record—including every combination of null and zero inputs—each ratio
derivation completes without a divide-by-zero fault, and each ratio is left
null whenever its denominator is zero or null: price/earnings when
`net_income_ttm ÷ diluted_shares` is null or zero (net income null/zero or
share count null/zero), price/sales when `revenue_ttm` is null or zero, and
price/book when `equity_latest` is null or zero. -/
theorem derived_ratios_null_on_zero_denominator_never_fault
    (price marketCap : Option ℚ) (metrics : Option FundRecord) :
    (∃ v, computedPe price metrics = Except.ok v) ∧
    (∃ v, computedPs marketCap metrics = Except.ok v) ∧
    (∃ v, computedPb marketCap metrics = Except.ok v) ∧
    (∀ m, metrics = some m →
      isNullOrZero m.netIncomeTtm = true ∨
        isNullOrZero m.sharesDilutedLatest = true →
      computedPe price metrics = Except.ok Option.none) ∧
    (∀ m, metrics = some m → isNullOrZero m.revenueTtm = true →
      computedPs marketCap metrics = Except.ok Option.none) ∧
    (∀ m, metrics = some m → isNullOrZero m.equityLatest = true →
      computedPb marketCap metrics = Except.ok Option.none) := by
  refine ⟨?_, ?_, ?_, ?_, ?_, ?_⟩
  · cases metrics with
    | none => exact ⟨Option.none, rfl⟩
    | some m =>
        cases price with
        | none => exact ⟨Option.none, rfl⟩
        | some p =>
            cases hni : m.netIncomeTtm with
            | none => exact ⟨Option.none, by simp [computedPe, hni]⟩
            | some ni =>
                cases hsh : m.sharesDilutedLatest with
                | none => exact ⟨Option.none, by simp [computedPe, hni, hsh]⟩
                | some sh =>
                    by_cases hsh0 : sh = 0
                    · exact ⟨Option.none, by simp [computedPe, hni, hsh, hsh0]⟩
                    · by_cases heps : ni / sh = 0
                      · exact ⟨Option.none, by
                          simp [computedPe, hni, hsh, hsh0, pyDiv_ok ni sh hsh0,
                            heps]⟩
                      · exact ⟨some (p / (ni / sh)), by
                          simp [computedPe, hni, hsh, hsh0, pyDiv_ok ni sh hsh0,
                            heps, pyDiv_ok p (ni / sh) heps]⟩
  · cases metrics with
    | none => exact ⟨Option.none, rfl⟩
    | some m =>
        cases marketCap with
        | none => exact ⟨Option.none, rfl⟩
        | some mc =>
            cases hrev : m.revenueTtm with
            | none => exact ⟨Option.none, by simp [computedPs, hrev]⟩
            | some rev =>
                by_cases hz : mc = 0 ∨ rev = 0
                · exact ⟨Option.none, by simp [computedPs, hrev, hz]⟩
                · have hrev0 : rev ≠ 0 := fun h => hz (Or.inr h)
                  exact ⟨some (mc / rev), by
                    simp [computedPs, hrev, hz, pyDiv_ok mc rev hrev0]⟩
  · cases metrics with
    | none => exact ⟨Option.none, rfl⟩
    | some m =>
        cases marketCap with
        | none => exact ⟨Option.none, rfl⟩
        | some mc =>
            cases heq : m.equityLatest with
            | none => exact ⟨Option.none, by simp [computedPb, heq]⟩
            | some eq =>
                by_cases hz : mc = 0 ∨ eq = 0
                · exact ⟨Option.none, by simp [computedPb, heq, hz]⟩
                · have heq0 : eq ≠ 0 := fun h => hz (Or.inr h)
                  exact ⟨some (mc / eq), by
                    simp [computedPb, heq, hz, pyDiv_ok mc eq heq0]⟩
  · intro m hm hden
    subst hm
    cases price with
    | none => rfl
    | some p =>
        rcases hden with hni | hsh
        · cases hni2 : m.netIncomeTtm with
          | none => simp [computedPe, hni2]
          | some ni =>
              have hni0 : ni = 0 := by
                rw [hni2] at hni
                simpa [isNullOrZero] using hni
              subst hni0
              cases hsh2 : m.sharesDilutedLatest with
              | none => simp [computedPe, hni2, hsh2]
              | some sh =>
                  by_cases hsh0 : sh = 0
                  · simp [computedPe, hni2, hsh2, hsh0]
                  · simp [computedPe, hni2, hsh2, hsh0, pyDiv_ok 0 sh hsh0]
        · cases hsh2 : m.sharesDilutedLatest with
          | none =>
              cases hni2 : m.netIncomeTtm with
              | none => simp [computedPe, hni2]
              | some ni => simp [computedPe, hni2, hsh2]
          | some sh =>
              have hsh0 : sh = 0 := by
                rw [hsh2] at hsh
                simpa [isNullOrZero] using hsh
              subst hsh0
              cases hni2 : m.netIncomeTtm with
              | none => simp [computedPe, hni2]
              | some ni => simp [computedPe, hni2, hsh2]
  · intro m hm hden
    subst hm
    cases marketCap with
    | none => rfl
    | some mc =>
        cases hrev : m.revenueTtm with
        | none => simp [computedPs, hrev]
        | some rev =>
            have hrev0 : rev = 0 := by
              rw [hrev] at hden
              simpa [isNullOrZero] using hden
            subst hrev0
            simp [computedPs, hrev]
  · intro m hm hden
    subst hm
    cases marketCap with
    | none => rfl
    | some mc =>
        cases heq : m.equityLatest with
        | none => simp [computedPb, heq]
        | some eq =>
            have heq0 : eq = 0 := by
              rw [heq] at hden
              simpa [isNullOrZero] using hden
            subst heq0
            simp [computedPb, heq]

/-- Witness for C6: with a record whose revenue is zero and net income is
null, price/sales and price/earnings come out null, without a fault. -/
theorem derived_ratios_null_on_zero_denominator_witness :
    computedPs (some 100)
      (some ⟨some 0, Option.none, some 5, some 3⟩) = Except.ok Option.none ∧
    computedPe (some 10)
      (some ⟨some 0, Option.none, some 5, some 3⟩) = Except.ok Option.none := by
  have h := derived_ratios_null_on_zero_denominator_never_fault (some 10)
    (some 100) (some ⟨some 0, Option.none, some 5, some 3⟩)
  refine ⟨?_, ?_⟩
  · exact h.2.2.2.2.1 ⟨some 0, Option.none, some 5, some 3⟩ rfl
      (by norm_num [isNullOrZero])
  · exact h.2.2.2.1 ⟨some 0, Option.none, some 5, some 3⟩ rfl
      (Or.inl (by norm_num [isNullOrZero]))

/-! ## Sentiment normalization adaptor (`scoring/adaptors/sentiment.py`)

Histories are lists of already-cleaned floats modelled as `Option ℚ` (the
`None` filter of `_safe_series` is explicit; the NaN/infinity filter is
vacuous for rationals).  The log / tanh / sqrt transforms live in `ℝ`. -/

/-- `_safe_series(values)` (sentiment.py lines 24-36) in the rational
model: drop `None` entries. -/
def safeSeries (values : List (Option ℚ)) : List ℚ :=
  values.filterMap id

/-- `_z_score(latest, series)` (sentiment.py lines 39-48): 0 for series of
length 0 or 1 or zero population standard deviation, else the z-score
against the series mean and population standard deviation. -/
noncomputable def zScore (latest : ℝ) (series : List ℝ) : ℝ :=
  match series with
  | [] => 0
  | [_] => 0
  | _ =>
      let mu := series.sum / series.length
      let sigma :=
        Real.sqrt ((series.map (fun v => (v - mu) ^ 2)).sum / series.length)
      if sigma = 0 then 0 else (latest - mu) / sigma

/-- `_compress(value) = tanh(value / 2)` (sentiment.py lines 51-53). -/
noncomputable def tanhCompress (v : ℝ) : ℝ :=
  Real.tanh (v / 2)

/-- `_score_put_call(series)` (sentiment.py lines 56-65): log the positive
values, z-score the latest log-value against the log-series, compress and
negate. -/
noncomputable def scorePutCall (series : List ℚ) : ℝ :=
  if series = [] then 0
  else
    let positive := series.filter (fun v => decide (0 < v))
    if positive = [] then 0
    else
      let logSeries := positive.map (fun q => Real.log (q : ℝ))
      Neg.neg (tanhCompress (zScore (logSeries.getLastD 0) logSeries))

/-- `_score_aaii(series)` (sentiment.py lines 68-73): z-score the latest
raw value against the raw series, compress and negate. -/
noncomputable def scoreAaii (series : List ℚ) : ℝ :=
  if series = [] then 0
  else -(tanhCompress (zScore ((series.getLastD 0 : ℚ) : ℝ)
    (series.map (fun q => (q : ℝ)))))

/-- The shape of `sentiment_node` that `aggregate` inspects: whether
`sentiment_node.get("put_call")` / `.get("aaii")` are mappings. -/
structure SentimentNode where
  putCallIsMapping : Bool
  aaiiIsMapping : Bool
deriving DecidableEq, Repr

/-- The two rolling history series `aggregate` reads. -/
structure SentimentHistories where
  putCallEquity : List (Option ℚ)
  aaiiBullBearSpread : List (Option ℚ)
deriving DecidableEq, Repr

/-- `SentimentResult` (sentiment.py lines 12-15): composite score plus the
rescaled per-signal components. -/
structure SentimentResult where
  score : ℝ
  components : List (String × ℝ)

/-- The contributions of the available signals, in the order `aggregate`
collects them. -/
noncomputable def availableContributions (node : SentimentNode)
    (history : SentimentHistories) : List ℝ :=
  (if safeSeries history.putCallEquity ≠ [] ∧ node.putCallIsMapping = true
   then [scorePutCall (safeSeries history.putCallEquity)] else []) ++
  (if safeSeries history.aaiiBullBearSpread ≠ [] ∧ node.aaiiIsMapping = true
   then [scoreAaii (safeSeries history.aaiiBullBearSpread)] else [])

/-- `aggregate(sentiment_node, history)` (sentiment.py lines 76-97): collect
the available per-signal contributions, return `None` when there are none,
else `50 + 50 * mean` clamped to `[0, 100]`. -/
noncomputable def aggregate (node : SentimentNode)
    (history : SentimentHistories) : Option SentimentResult :=
  let pcSeries := safeSeries history.putCallEquity
  let comps1 : List (String × ℝ) :=
    if pcSeries ≠ [] ∧ node.putCallIsMapping = true then
      [("put_call", scorePutCall pcSeries)] else []
  let aaiiSeries := safeSeries history.aaiiBullBearSpread
  let comps := comps1 ++
    (if aaiiSeries ≠ [] ∧ node.aaiiIsMapping = true then
      [("aaii", scoreAaii aaiiSeries)] else [])
  if comps = [] then Option.none
  else
    let combined := (comps.map Prod.snd).sum / comps.length
    let score := max 0 (min 100 (50 + 50 * combined))
    some ⟨score, comps.map (fun kv => (kv.1, 50 + 50 * kv.2))⟩

/-- **C7.** `aggregate` returns `None` exactly when zero signals are
available (a signal is available when its cleaned history series is
non-empty and its node entry is a mapping)—never a neutral 50—and otherwise
returns `50 + 50 × (mean of the available contributions)` clamped to
`[0, 100]`; hence every returned composite score lies within `[0, 100]`
for any finite input history. -/
theorem aggregate_none_iff_no_signals_and_score_in_range
    (node : SentimentNode) (history : SentimentHistories) :
    (aggregate node history = Option.none ↔
      ¬((safeSeries history.putCallEquity ≠ [] ∧
          node.putCallIsMapping = true) ∨
        (safeSeries history.aaiiBullBearSpread ≠ [] ∧
          node.aaiiIsMapping = true))) ∧
    (∀ r, aggregate node history = some r →
      r.score = max 0 (min 100 (50 + 50 *
        ((availableContributions node history).sum /
          (availableContributions node history).length))) ∧
      0 ≤ r.score ∧ r.score ≤ 100) := by
  by_cases h1 : safeSeries history.putCallEquity ≠ [] ∧
      node.putCallIsMapping = true <;>
  by_cases h2 : safeSeries history.aaiiBullBearSpread ≠ [] ∧
      node.aaiiIsMapping = true
  · refine ⟨by simp [aggregate, h1, h2], ?_⟩
    intro r hr
    simp only [aggregate, if_pos h1, if_pos h2, List.cons_append,
      List.nil_append] at hr
    rw [if_neg (by simp)] at hr
    rw [Option.some.injEq] at hr
    subst hr
    refine ⟨?_, le_max_left _ _,
      max_le (by norm_num) (le_trans (min_le_left _ _) (by norm_num))⟩
    simp [availableContributions, if_pos h1, if_pos h2]
  · refine ⟨by simp [aggregate, h1, h2], ?_⟩
    intro r hr
    simp only [aggregate, if_pos h1, if_neg h2, List.append_nil] at hr
    rw [if_neg (by simp)] at hr
    rw [Option.some.injEq] at hr
    subst hr
    refine ⟨?_, le_max_left _ _,
      max_le (by norm_num) (le_trans (min_le_left _ _) (by norm_num))⟩
    simp [availableContributions, if_pos h1, if_neg h2]
  · refine ⟨by simp [aggregate, h1, h2], ?_⟩
    intro r hr
    simp only [aggregate, if_neg h1, if_pos h2, List.nil_append] at hr
    rw [if_neg (by simp)] at hr
    rw [Option.some.injEq] at hr
    subst hr
    refine ⟨?_, le_max_left _ _,
      max_le (by norm_num) (le_trans (min_le_left _ _) (by norm_num))⟩
    simp [availableContributions, if_neg h1, if_pos h2]
  · refine ⟨by simp [aggregate, h1, h2], ?_⟩
    intro r hr
    simp only [aggregate, if_neg h1, if_neg h2, List.append_nil] at hr
    simp at hr

/-- Witness for C7: a single one-element put/call history yields the score
`50` (one available signal with zero contribution), inside `[0, 100]`. -/
theorem aggregate_score_in_range_witness :
    aggregate ⟨true, false⟩ ⟨[some 1], []⟩ =
      some ⟨50, [("put_call", 50)]⟩ ∧
    (0 : ℝ) ≤ 50 ∧ (50 : ℝ) ≤ 100 := by
  have hser : safeSeries [some (1 : ℚ)] = [1] := rfl
  have hpc : scorePutCall [(1 : ℚ)] = 0 := by
    norm_num [scorePutCall, zScore, tanhCompress, List.filter,
      List.getLastD, Real.log_one, Real.tanh_zero]
  have haggr : aggregate ⟨true, false⟩ ⟨[some 1], []⟩ =
      some ⟨50, [("put_call", 50)]⟩ := by
    simp [aggregate, safeSeries, hpc]
    norm_num
  have h := (aggregate_none_iff_no_signals_and_score_in_range
    ⟨true, false⟩ ⟨[some 1], []⟩).2 ⟨50, [("put_call", 50)]⟩ haggr
  exact ⟨haggr, h.2.1, h.2.2⟩

/-! ## EDGAR trailing-twelve-month derivation (`_edgar_ttm_from_fact`,
run_fetch.py lines 2039-2076)

Entries are the USD-unit observations collected by `_edgar_collect_entries`
from one company fact.  Dates are `YYYY-MM-DD` strings (the only format
EDGAR emits; `datetime.fromisoformat` accepts it, and any string it cannot
parse sends the entry to the annual bucket, which `parseIsoDate = none`
models).  Day numbers use the standard civil-calendar algorithm so that
`(end - start).days` is the difference of day numbers. -/

/-- Python `str.upper()` restricted to what the kernel can evaluate:
uppercase each character. -/
def pyUpper (s : String) : String :=
  String.mk (s.data.map Char.toUpper)

/-- Python `str.startswith(pre)`. -/
def pyStartsWith (s pre : String) : Bool :=
  pre.data.isPrefixOf s.data

/-- `EDGAR_ALLOWED_FORMS` (run_fetch.py lines 1907-1916). -/
def EDGAR_ALLOWED_FORMS : List String :=
  ["10-Q", "10-Q/A", "10-K", "10-K/A", "20-F", "40-F", "6-K", "6-K/A"]

/-- Gregorian leap-year test. -/
def isLeapYear (y : ℕ) : Bool :=
  (y % 4 = 0 ∧ y % 100 ≠ 0) ∨ y % 400 = 0

/-- Number of days in a month. -/
def daysInMonth (y m : ℕ) : ℕ :=
  if m = 2 then (if isLeapYear y then 29 else 28)
  else if m = 4 ∨ m = 6 ∨ m = 9 ∨ m = 11 then 30
  else 31

/-- Civil day number of `y-m-d` (valid for `y ≥ 1`), so that differences of
day numbers equal `(end_dt - start_dt).days`. -/
def dayNumber (y m d : ℕ) : ℕ :=
  let yAdj := y - (if m ≤ 2 then 1 else 0)
  let era := yAdj / 400
  let yoe := yAdj - era * 400
  let doy := (153 * (if 2 < m then m - 3 else m + 9) + 2) / 5 + d - 1
  let doe := yoe * 365 + yoe / 4 - yoe / 100 + doy
  era * 146097 + doe

/-- Parse a strict `YYYY-MM-DD` date into its civil day number; `none` for
anything `datetime.fromisoformat` would reject (wrong shape, month/day out
of range, year 0). -/
def parseIsoDate (s : String) : Option ℕ :=
  match s.toList with
  | [y1, y2, y3, y4, c1, m1, m2, c2, d1, d2] =>
      if y1.isDigit ∧ y2.isDigit ∧ y3.isDigit ∧ y4.isDigit ∧ c1 = '-' ∧
         m1.isDigit ∧ m2.isDigit ∧ c2 = '-' ∧ d1.isDigit ∧ d2.isDigit then
        let y := (y1.toNat - 48) * 1000 + (y2.toNat - 48) * 100 +
          (y3.toNat - 48) * 10 + (y4.toNat - 48)
        let m := (m1.toNat - 48) * 10 + (m2.toNat - 48)
        let d := (d1.toNat - 48) * 10 + (d2.toNat - 48)
        if 1 ≤ y ∧ 1 ≤ m ∧ m ≤ 12 ∧ 1 ≤ d ∧ d ≤ daysInMonth y m then
          some (dayNumber y m d)
        else Option.none
      else Option.none
  | _ => Option.none

/-- One raw observation from a fact's unit list: the fields
`_edgar_ttm_from_fact` reads (`end`, `val`, `form`, `fp`, `start`), with
`end`/`val` already put through `_edgar_parse_date` / `_safe_float`
upstream semantics preserved (`none` for missing/falsy/unparseable). -/
structure EdgarEntry where
  endDate : Option String
  val : Option ℚ
  form : String
  fp : String
  start : Option String
deriving DecidableEq, Repr

/-- `_edgar_parse_date(value)` (run_fetch.py lines 2033-2036): falsy (`None`
or empty) becomes `None`. -/
def edgarParseDate (v : Option String) : Option String :=
  match v with
  | Option.none => Option.none
  | some s => if s = "" then Option.none else some s

/-- Bucket a single entry the way the loop at run_fetch.py lines 2043-2067
does: skip on missing end/val or disallowed form; quarterly on an explicit
`fp` starting with `Q` or a 70-100-day start→end duration; annual
otherwise (including an unparseable or missing `start`). -/
inductive EntryClass where
  | skip
  | quarter (endDate : String) (v : ℚ)
  | annual (endDate : String) (v : ℚ)
deriving DecidableEq, Repr

def classifyEntry (e : EdgarEntry) : EntryClass :=
  match edgarParseDate e.endDate, e.val with
  | some endStr, some v =>
      if pyUpper e.form ∉ EDGAR_ALLOWED_FORMS then EntryClass.skip
      else if pyStartsWith (pyUpper e.fp) "Q" then EntryClass.quarter endStr v
      else
        match e.start with
        | some startStr =>
            match parseIsoDate startStr, parseIsoDate endStr with
            | some sd, some ed =>
                if 70 ≤ (ed : ℤ) - (sd : ℤ) ∧ (ed : ℤ) - (sd : ℤ) ≤ 100 then
                  EntryClass.quarter endStr v
                else EntryClass.annual endStr v
            | _, _ => EntryClass.annual endStr v
        | Option.none => EntryClass.annual endStr v
  | _, _ => EntryClass.skip

/-- The `(end, val)` pairs appended to `quarterly`, in entry order. -/
def quarterObservations (entries : List EdgarEntry) : List (String × ℚ) :=
  entries.filterMap (fun e =>
    match classifyEntry e with
    | EntryClass.quarter s v => some (s, v)
    | _ => Option.none)

/-- The `(end, val)` pairs appended to `annual`, in entry order. -/
def annualObservations (entries : List EdgarEntry) : List (String × ℚ) :=
  entries.filterMap (fun e =>
    match classifyEntry e with
    | EntryClass.annual s v => some (s, v)
    | _ => Option.none)

/-- Insert into a list already sorted by end date descending, keeping the
incoming element before equal keys that were originally later (the unique
stable descending order that Python's `list.sort(reverse=True)`
produces). -/
def insertByEndDesc (x : String × ℚ) :
    List (String × ℚ) → List (String × ℚ)
  | [] => [x]
  | y :: ys => if x.1 < y.1 then y :: insertByEndDesc x ys else x :: y :: ys

/-- `observations.sort(key=lambda item: item[0], reverse=True)`: the stable
sort by end date descending. -/
def sortByEndDesc : List (String × ℚ) → List (String × ℚ)
  | [] => []
  | x :: xs => insertByEndDesc x (sortByEndDesc xs)

lemma insertByEndDesc_length (x : String × ℚ) (xs : List (String × ℚ)) :
    (insertByEndDesc x xs).length = xs.length + 1 := by
  induction xs with
  | nil => rfl
  | cons y ys ih =>
      by_cases h : x.1 < y.1 <;> simp [insertByEndDesc, h, ih]

lemma sortByEndDesc_length (xs : List (String × ℚ)) :
    (sortByEndDesc xs).length = xs.length := by
  induction xs with
  | nil => rfl
  | cons x xs ih => simp [sortByEndDesc, insertByEndDesc_length, ih]

lemma insertByEndDesc_sum (x : String × ℚ) (xs : List (String × ℚ)) :
    ((insertByEndDesc x xs).map Prod.snd).sum =
      x.2 + (xs.map Prod.snd).sum := by
  induction xs with
  | nil => simp [insertByEndDesc]
  | cons y ys ih =>
      by_cases h : x.1 < y.1
      · simp [insertByEndDesc, h, ih]
        ring
      · simp [insertByEndDesc, h]

lemma sortByEndDesc_sum (xs : List (String × ℚ)) :
    ((sortByEndDesc xs).map Prod.snd).sum = (xs.map Prod.snd).sum := by
  induction xs with
  | nil => rfl
  | cons x xs ih => simp [sortByEndDesc, insertByEndDesc_sum, ih]

/-- `_edgar_ttm_from_fact` (run_fetch.py lines 2039-2076) after the
bucketing loop: sort the quarters by end date descending; with four or more
quarters return the sum of the first four; else the latest annual value if
any annual exists; else the sum of the quarters if any; else `None`. -/
def edgarTtmFromFact (entries : List EdgarEntry) : Option ℚ :=
  let q := sortByEndDesc (quarterObservations entries)
  let a := annualObservations entries
  if 4 ≤ q.length then some (((q.take 4).map Prod.snd).sum)
  else if a ≠ [] then ((sortByEndDesc a).head?).map Prod.snd
  else if q ≠ [] then some ((q.map Prod.snd).sum)
  else Option.none

/-- **C8.** The trailing-twelve-month derivation returns the sum of the four
most recent quarterly observations when at least four quarters exist;
otherwise the single latest annual observation when one exists; otherwise
the sum of whatever quarters exist; otherwise `None`.  Moreover, every
quarterly observation comes from an entry with an allowed filing form that
either carries an explicit quarter marker (`fp` starting with `Q`) or has a
reporting-period duration of 70-100 days. -/
theorem edgarTtm_prefers_four_quarters_then_annual_then_rest
    (entries : List EdgarEntry) :
    (4 ≤ (quarterObservations entries).length →
      edgarTtmFromFact entries = some
        ((((sortByEndDesc (quarterObservations entries)).take 4).map
          Prod.snd).sum)) ∧
    ((quarterObservations entries).length < 4 →
      annualObservations entries ≠ [] →
      edgarTtmFromFact entries =
        ((sortByEndDesc (annualObservations entries)).head?).map Prod.snd) ∧
    ((quarterObservations entries).length < 4 →
      annualObservations entries = [] →
      quarterObservations entries ≠ [] →
      edgarTtmFromFact entries =
        some (((quarterObservations entries).map Prod.snd).sum)) ∧
    (quarterObservations entries = [] → annualObservations entries = [] →
      edgarTtmFromFact entries = Option.none) ∧
    (∀ e ∈ entries, ∀ s v, classifyEntry e = EntryClass.quarter s v →
      pyUpper e.form ∈ EDGAR_ALLOWED_FORMS ∧
      (pyStartsWith (pyUpper e.fp) "Q" = true ∨
       ∃ startStr sd ed, e.start = some startStr ∧
         parseIsoDate startStr = some sd ∧ parseIsoDate s = some ed ∧
         70 ≤ (ed : ℤ) - (sd : ℤ) ∧ (ed : ℤ) - (sd : ℤ) ≤ 100)) := by
  refine ⟨?_, ?_, ?_, ?_, ?_⟩
  · intro h4
    have : 4 ≤ (sortByEndDesc (quarterObservations entries)).length := by
      rw [sortByEndDesc_length]; exact h4
    simp [edgarTtmFromFact, this]
  · intro h4 hann
    have hlen : ¬4 ≤ (sortByEndDesc (quarterObservations entries)).length := by
      rw [sortByEndDesc_length]; omega
    simp [edgarTtmFromFact, hlen, hann]
  · intro h4 hann hq
    have hlen : ¬4 ≤ (sortByEndDesc (quarterObservations entries)).length := by
      rw [sortByEndDesc_length]; omega
    have hqs : sortByEndDesc (quarterObservations entries) ≠ [] := by
      intro hcon
      apply hq
      have := sortByEndDesc_length (quarterObservations entries)
      rw [hcon] at this
      exact List.length_eq_zero.mp this.symm
    simp [edgarTtmFromFact, hlen, hann, hqs, sortByEndDesc_sum]
  · intro hq hann
    simp [edgarTtmFromFact, hq, hann, sortByEndDesc]
  · intro e he s v hc
    unfold classifyEntry at hc
    cases hend : edgarParseDate e.endDate with
    | none => rw [hend] at hc; simp at hc
    | some endStr =>
        cases hval : e.val with
        | none => rw [hend, hval] at hc; simp at hc
        | some v0 =>
            rw [hend, hval] at hc
            simp only [] at hc
            by_cases hform : pyUpper e.form ∈ EDGAR_ALLOWED_FORMS
            · rw [if_neg (fun hno => hno hform)] at hc
              by_cases hq : pyStartsWith (pyUpper e.fp) "Q" = true
              · exact ⟨hform, Or.inl hq⟩
              · rw [if_neg hq] at hc
                cases hst : e.start with
                | none => simp only [hst] at hc; simp at hc
                | some startStr =>
                    simp only [hst] at hc
                    cases hsd : parseIsoDate startStr with
                    | none => simp only [hsd] at hc; simp at hc
                    | some sd =>
                        cases hed : parseIsoDate endStr with
                        | none => simp only [hsd, hed] at hc; simp at hc
                        | some ed =>
                            simp only [hsd, hed] at hc
                            by_cases hdur : 70 ≤ (ed : ℤ) - (sd : ℤ) ∧
                                (ed : ℤ) - (sd : ℤ) ≤ 100
                            · rw [if_pos hdur] at hc
                              simp only [EntryClass.quarter.injEq] at hc
                              refine ⟨hform, Or.inr ⟨startStr, sd, ed, rfl,
                                hsd, ?_, hdur.1, hdur.2⟩⟩
                              rw [hc.1] at hed
                              exact hed
                            · rw [if_neg hdur] at hc
                              simp at hc
            · rw [if_pos hform] at hc
              simp at hc

/-- Four explicitly-marked quarterly 10-Q entries for C8's witness. -/
def edgarWitnessEntries : List EdgarEntry :=
  [⟨some "2023-06-30", some 1, "10-Q", "Q2", Option.none⟩,
   ⟨some "2023-09-30", some 2, "10-Q", "Q3", Option.none⟩,
   ⟨some "2023-12-31", some 3, "10-K", "Q4", Option.none⟩,
   ⟨some "2024-03-31", some 4, "10-Q", "Q1", Option.none⟩]

/-- Witness for C8: four explicit quarters sum to the TTM value. -/
theorem edgarTtm_prefers_four_quarters_witness :
    edgarTtmFromFact edgarWitnessEntries = some
      ((((sortByEndDesc (quarterObservations edgarWitnessEntries)).take 4).map
        Prod.snd).sum) :=
  (edgarTtm_prefers_four_quarters_then_annual_then_rest
    edgarWitnessEntries).1 (by decide)

/-! ## Credential normalization (`_normalize_api_keys` / `_load_api_keys`,
run_fetch.py lines 254-283 and 354-372)

A JSON credential value is `None`, a string, or some other JSON value (the
`other` constructor, tagged only to keep distinct values distinct). -/

/-- A value in the credential payload. -/
inductive ApiValue where
  | null
  | str (s : String)
  | other (tag : ℕ)
deriving DecidableEq, Repr

/-- `CANONICAL_API_KEYS` (run_fetch.py lines 241-251). -/
def CANONICAL_API_KEYS : List String :=
  ["alpha_vantage", "twelve_data", "financial_modeling_prep",
   "trading_economics", "finnhub", "sosovalue", "coinglass",
   "alpaca_key_id", "alpaca_secret"]

/-- Python `str.strip()`: drop whitespace from both ends. -/
def pyStrip (s : String) : String :=
  String.mk
    (((s.data.dropWhile Char.isWhitespace).reverse.dropWhile
      Char.isWhitespace).reverse)

/-- The loop of `_normalize_api_keys` (run_fetch.py lines 265-278),
returning the `errors`, `normalized` and `extras` dicts in iteration
order. -/
def normalizeScan : List (String × ApiValue) →
    List (String × String) × List (String × ApiValue) × List (String × ApiValue)
  | [] => ([], [], [])
  | (k, v) :: rest =>
      let res := normalizeScan rest
      if k ∈ CANONICAL_API_KEYS then
        match v with
        | ApiValue.null => res
        | ApiValue.str s =>
            if pyStrip s = "" then
              ((k, "empty string") :: res.1, res.2.1, res.2.2)
            else (res.1, (k, ApiValue.str (pyStrip s)) :: res.2.1, res.2.2)
        | ApiValue.other _ =>
            ((k, "expected string value") :: res.1, res.2.1, res.2.2)
      else (res.1, res.2.1, (k, v) :: res.2.2)

/-- `_normalize_api_keys(payload)` (run_fetch.py lines 260-283): raise
`ApiKeyValidationError(errors)` when any canonical entry is invalid, else
return the stripped canonical entries followed by the untouched extras
(`dict(normalized)` then `result.update(extras)`; canonical and
non-canonical keys are disjoint, so the update appends). -/
def normalizeApiKeys (payload : List (String × ApiValue)) :
    Except (List (String × String)) (List (String × ApiValue)) :=
  let res := normalizeScan payload
  if res.1 ≠ [] then Except.error res.1
  else Except.ok (res.2.1 ++ res.2.2)

/-- The normalization step of `_load_api_keys` (run_fetch.py lines
354-366): catch the validation error and fall back to the entries whose
value is a string with non-empty strip.  Total by construction—no exception
escapes. -/
def loadApiKeysNormalize (data : List (String × ApiValue)) :
    List (String × ApiValue) :=
  match normalizeApiKeys data with
  | Except.ok normalized => normalized
  | Except.error _ =>
      data.filter (fun kv =>
        match kv.2 with
        | ApiValue.str s => pyStrip s ≠ ""
        | _ => false)

/-- Specification of the `errors` dict: one entry per canonical key whose
value is a non-string (other than `None`) or an empty/whitespace-only
string, in payload order. -/
def invalidKeyEntries (payload : List (String × ApiValue)) :
    List (String × String) :=
  payload.filterMap (fun kv =>
    if kv.1 ∈ CANONICAL_API_KEYS then
      match kv.2 with
      | ApiValue.other _ => some (kv.1, "expected string value")
      | ApiValue.str s =>
          if pyStrip s = "" then some (kv.1, "empty string") else Option.none
      | ApiValue.null => Option.none
    else Option.none)

/-- Specification of the `normalized` dict: canonical keys with valid
string values, stripped; canonical `None` entries are dropped. -/
def normalizedCanonicalEntries (payload : List (String × ApiValue)) :
    List (String × ApiValue) :=
  payload.filterMap (fun kv =>
    if kv.1 ∈ CANONICAL_API_KEYS then
      match kv.2 with
      | ApiValue.str s =>
          if pyStrip s = "" then Option.none
          else some (kv.1, ApiValue.str (pyStrip s))
      | _ => Option.none
    else Option.none)

/-- Specification of the `extras` dict: non-canonical entries unchanged. -/
def passthroughEntries (payload : List (String × ApiValue)) :
    List (String × ApiValue) :=
  payload.filter (fun kv => kv.1 ∉ CANONICAL_API_KEYS)

lemma normalizeScan_eq (payload : List (String × ApiValue)) :
    normalizeScan payload =
      (invalidKeyEntries payload, normalizedCanonicalEntries payload,
       passthroughEntries payload) := by
  induction payload with
  | nil => rfl
  | cons kv rest ih =>
      obtain ⟨k, v⟩ := kv
      by_cases hk : k ∈ CANONICAL_API_KEYS
      · cases v with
        | null =>
            simp [normalizeScan, invalidKeyEntries, normalizedCanonicalEntries,
              passthroughEntries, hk, ih]
        | str s =>
            by_cases hs : pyStrip s = "" <;>
              simp [normalizeScan, invalidKeyEntries,
                normalizedCanonicalEntries, passthroughEntries, hk, hs, ih]
        | other t =>
            simp [normalizeScan, invalidKeyEntries, normalizedCanonicalEntries,
              passthroughEntries, hk, ih]
      · simp [normalizeScan, invalidKeyEntries, normalizedCanonicalEntries,
          passthroughEntries, hk, ih]

/-- **C10.** `_normalize_api_keys` raises exactly when some canonical key
has a non-string (non-`None`) value or an empty/whitespace-only string, and
the raised error names exactly those keys with their reasons; on success it
returns the canonical entries stripped of whitespace (with `None`-valued
canonical entries dropped) followed by the unrecognized entries unchanged.
`_load_api_keys` catches the validation error and falls back to keeping the
entries whose value is a non-empty string, so its normalization step is a
total function—no exception propagates. -/
theorem normalizeApiKeys_validates_and_load_never_raises
    (payload : List (String × ApiValue)) :
    (normalizeApiKeys payload = Except.error (invalidKeyEntries payload) ↔
      invalidKeyEntries payload ≠ []) ∧
    (invalidKeyEntries payload = [] →
      normalizeApiKeys payload = Except.ok
        (normalizedCanonicalEntries payload ++ passthroughEntries payload)) ∧
    loadApiKeysNormalize payload =
      (if invalidKeyEntries payload = [] then
        normalizedCanonicalEntries payload ++ passthroughEntries payload
       else payload.filter (fun kv =>
        match kv.2 with
        | ApiValue.str s => pyStrip s ≠ ""
        | _ => false)) := by
  by_cases hinv : invalidKeyEntries payload = []
  · refine ⟨?_, ?_, ?_⟩
    · simp [normalizeApiKeys, normalizeScan_eq, hinv]
    · intro _
      simp [normalizeApiKeys, normalizeScan_eq, hinv]
    · simp [loadApiKeysNormalize, normalizeApiKeys, normalizeScan_eq, hinv]
  · refine ⟨?_, ?_, ?_⟩
    · simp [normalizeApiKeys, normalizeScan_eq, hinv]
    · intro h
      exact absurd h hinv
    · simp [loadApiKeysNormalize, normalizeApiKeys, normalizeScan_eq, hinv]

/-- Witness for C10: a payload with a padded valid key and an unrecognized
entry normalizes cleanly; a whitespace-only canonical value raises naming
that key; the fallback keeps only non-empty string entries. -/
theorem normalizeApiKeys_validates_witness :
    normalizeApiKeys
      [("alpha_vantage", ApiValue.str " k "), ("custom", ApiValue.other 0)] =
      Except.ok
        [("alpha_vantage", ApiValue.str "k"), ("custom", ApiValue.other 0)] ∧
    normalizeApiKeys [("finnhub", ApiValue.str " "), ("finnhub_extra",
      ApiValue.str "x")] =
      Except.error [("finnhub", "empty string")] ∧
    loadApiKeysNormalize [("finnhub", ApiValue.str " "), ("finnhub_extra",
      ApiValue.str "x")] = [("finnhub_extra", ApiValue.str "x")] := by
  refine ⟨?_, ?_, ?_⟩
  · exact ((normalizeApiKeys_validates_and_load_never_raises
      [("alpha_vantage", ApiValue.str " k "),
       ("custom", ApiValue.other 0)]).2.1 (by decide)).trans (by
        simp only [Except.ok.injEq]; decide)
  · exact ((normalizeApiKeys_validates_and_load_never_raises
      [("finnhub", ApiValue.str " "),
       ("finnhub_extra", ApiValue.str "x")]).1.mpr (by decide)).trans
      (by simp only [Except.error.injEq]; decide)
  · exact ((normalizeApiKeys_validates_and_load_never_raises
      [("finnhub", ApiValue.str " "),
       ("finnhub_extra", ApiValue.str "x")]).2.2).trans (by decide)

end DailyMessenger
